import Mathlib

/-!
Verification of the tusc-s5 upload server (`src/internal/server.go`).

Go strings are byte sequences; here they are embedded as `List Nat` (one
entry per byte).  Every string literal appearing in the source is ASCII,
so the byte sequence of a literal is the list of its character codes.

The listing handler `homepage` (server.go:150-226) is embedded as a pure
function from the directory scan result and the store's `GetInfo` oracle
to an HTTP outcome.  The quota decorator lives in the external package
`github.com/tus/tusd/limitedstore`, whose code is not part of this
repository; it is modelled from the specification (see `lsCreate`).
-/

namespace TuscS5

/-- A Go string as its byte sequence. -/
abbrev Bytes := List Nat

/-- Byte sequence of an ASCII string literal (code point = byte for ASCII). -/
def strBytes (s : String) : Bytes := s.data.map Char.toNat

/-- Go's `<` on strings: lexicographic, byte by byte, with a proper
initial segment ordered before its extensions (server.go:218 uses this
comparison on the `filename` metadata values). -/
def bytesLt : Bytes → Bytes → Bool
  | [], [] => false
  | [], _ :: _ => true
  | _ :: _, [] => false
  | a :: as, b :: bs =>
    if a < b then true
    else if b < a then false
    else bytesLt as bs

/-- Embedding of `tusd.FileInfo` restricted to the fields used by this
repository: the identifier, declared size, committed offset and the
string-to-string metadata map. -/
structure FileInfo where
  ID : Bytes
  Size : Int
  Offset : Int
  MetaData : List (Bytes × Bytes)
deriving DecidableEq

/-- Go map indexing `m["k"]` with the zero value `""` for a missing key
(the template at server.go:181 does `index .MetaData "filename"`). -/
def metaLookup : List (Bytes × Bytes) → Bytes → Bytes
  | [], _ => []
  | (k, v) :: rest, key => if k = key then v else metaLookup rest key

/-- The byte sequence of the metadata key "filename". -/
def filenameKey : Bytes := strBytes "filename"

/-- The `filename` metadata value of a record, as read at server.go:218. -/
def fnameOf (i : FileInfo) : Bytes := metaLookup i.MetaData filenameKey

/-- The comparator handed to `sort.Slice` at server.go:217-219 is the
strict order `bytesLt` on `filename` values; a conforming sort produces a
permutation that is sorted with respect to the induced non-strict order,
which is this function. -/
def infoLe (a b : FileInfo) : Bool := ! bytesLt (fnameOf b) (fnameOf a)

/-- The comparator `infoLe` as a decidable relation. -/
def infoLeP : FileInfo → FileInfo → Prop := fun a b => infoLe a b = true

instance : DecidableRel infoLeP :=
  fun a b => inferInstanceAs (Decidable (infoLe a b = true))

/-- Model of `sort.Slice(infos, less)` at server.go:217-219.  Go's `sort.Slice`
algorithm lives in the standard library, not in this repository; its
contract (the output is a permutation of the input, sorted with respect
to the comparator) is embedded by a concrete conforming comparison sort.
`sort.Slice` is documented as not guaranteed stable, so no theorem here
relies on stability of this model. -/
def sortInfos (infos : List FileInfo) : List FileInfo :=
  List.insertionSort infoLeP infos

/-- The sidecar suffix `ext := ".info"` of server.go:201. -/
def extBytes : Bytes := strBytes ".info"

/-- The guard `lenOfID > 0 && filename[lenOfID:] == ext` of server.go:206,
for names long enough that the slice is defined. -/
def sidecarMatches (name : Bytes) : Bool :=
  decide (5 < name.length) && decide (name.drop (name.length - 5) = extBytes)

/-- The expression `filename[:lenOfID]` of server.go:207: the identifier recovered by
stripping the sidecar suffix. -/
def stemOf (name : Bytes) : Bytes := name.take (name.length - 5)

/-- Outcome of the collection loop of server.go:199-216.  `crash` models a
Go runtime panic: the debug print at server.go:203 evaluates
`filename[lenOfID:]` before the `lenOfID > 0` guard, and Go string slicing
with a negative index panics, which happens exactly when the entry name is
shorter than 5 bytes.  `fail` is a `GetInfo` error, answered with HTTP 500
at server.go:209. -/
inductive CollectResult where
  | crash
  | fail
  | ok (infos : List FileInfo)
deriving DecidableEq

/-- The loop of server.go:199-216: directory entries are processed in scan
order; an entry shorter than the suffix panics at the debug print
(server.go:203); an entry satisfying the sidecar guard is resolved through
`GetInfo`, whose failure aborts the loop; all other entries are skipped;
resolved records accumulate in scan order. -/
def collectInfos (getInfo : Bytes → Option FileInfo) : List Bytes → CollectResult
  | [] => .ok []
  | name :: rest =>
    if name.length < 5 then .crash
    else if sidecarMatches name then
      match getInfo (stemOf name) with
      | none => .fail
      | some info =>
        match collectInfos getInfo rest with
        | .ok infos => .ok (info :: infos)
        | r => r
    else collectInfos getInfo rest

/-- One rendered `<li><a ...>` item of the template at server.go:181:
the href is the fixed URL stem followed by the record's identifier, and
the visible text is the record's `filename` metadata value. -/
structure Link where
  href : Bytes
  text : Bytes
deriving DecidableEq

/-- The fixed URL stem of the template at server.go:181. -/
def urlStem : Bytes := strBytes "http://127.0.0.1:1080/files/"

/-- The `range` body of the template at server.go:181, one link per record
in list order. -/
def renderLinks (infos : List FileInfo) : List Link :=
  infos.map (fun i => { href := urlStem ++ i.ID, text := fnameOf i })

/-- Outcome of one listing request (server.go:189-225): a Go runtime
panic, an `http.Error` status, or the rendered page (its links in
rendered order). -/
inductive ListingOutcome where
  | crash
  | httpError (code : Nat)
  | page (links : List Link)
deriving DecidableEq

/-- The handler body of server.go:189-225: a failed directory read is
answered with HTTP 500 (server.go:192-194); otherwise the entries are
collected (server.go:199-216), any `GetInfo` failure is answered with
HTTP 500 (server.go:209), the collected records are sorted by `filename`
(server.go:217-219) and rendered (server.go:220). -/
def homepageResponse (readDirOk : Bool) (entries : List Bytes)
    (getInfo : Bytes → Option FileInfo) : ListingOutcome :=
  if readDirOk = false then .httpError 500
  else
    match collectInfos getInfo entries with
    | .crash => .crash
    | .fail => .httpError 500
    | .ok infos => .page (renderLinks (sortInfos infos))

/-- The assignment `conf.listingEndpoint = "/"` of server.go:67. -/
def listingEndpoint : Bytes := strBytes "/"

/-- The store wiring decided at server.go:81-89: whether the
`limitedstore` quota decorator is installed, and the effective `MaxSize`
handed to `tusd.NewHandler` at server.go:113. -/
structure StoreSetup where
  quotaInstalled : Bool
  maxSize : Int
deriving DecidableEq

/-- Lines 81-89 of server.go: the quota decorator is installed exactly when
`conf.storeSize > 0`, and in that case `conf.maxSize` is replaced by
`conf.storeSize` when it exceeds it or is zero. -/
def setupStore (storeSize maxSize : Int) : StoreSetup :=
  if 0 < storeSize then
    { quotaInstalled := true
      maxSize := if storeSize < maxSize ∨ maxSize = 0 then storeSize else maxSize }
  else
    { quotaInstalled := false, maxSize := maxSize }

/-- Which handler is mounted at a path by server.go:126-129. -/
inductive HandlerKind where
  | upload
  | listing
deriving DecidableEq

/-- Lines 126-129 of server.go: the upload handler is mounted at the configured
base path, then the listing handler is mounted at `listingEndpoint` only
when that differs from the base path. -/
def mountedHandlers (uploadEndpoint : Bytes) : List (Bytes × HandlerKind) :=
  (uploadEndpoint, HandlerKind.upload) ::
    (if ¬ listingEndpoint = uploadEndpoint then [(listingEndpoint, HandlerKind.listing)] else [])

/-- Result of running `Server()` up to `http.Serve`: either the process
terminated via `stderr.Fatalf` with the logged message, or every startup
step succeeded and the server is serving. -/
inductive StartupResult where
  | fatal (msg : String)
  | serving
deriving DecidableEq

/-- The startup sequence of `Server()` in source order, each fallible
external call abstracted as a success flag: `os.MkdirAll` (server.go:75-77),
`tusd.NewHandler` (server.go:112-124), the listing-template parse inside
`homepage` — reached only when the listing handler is mounted
(server.go:127-129, 185-187) — and listener creation (server.go:134-143).
Each failure calls `stderr.Fatalf`, which logs and exits the process. -/
def serverStartup (uploadEndpoint : Bytes)
    (mkdirOk handlerOk templateOk listenOk : Bool) : StartupResult :=
  if mkdirOk = false then .fatal "Unable to ensure directory exists"
  else if handlerOk = false then .fatal "Unable to create handler"
  else if ¬ listingEndpoint = uploadEndpoint ∧ templateOk = false then
    .fatal "Unable to parse template"
  else if listenOk = false then .fatal "Unable to create listener"
  else .serving

/-- The quota error of the decorator. -/
inductive QuotaError where
  | quotaExceeded
deriving DecidableEq

/-- Modelled from the spec: the state of the `limitedstore` decorator
(package `github.com/tus/tusd/limitedstore`, installed at server.go:82 but
not part of this repository): the configured ceiling, the running
`usedBytes` total, and the declared sizes held by the inner store. -/
structure LimitedStore where
  ceiling : Int
  usedBytes : Int
  inner : List Int
deriving DecidableEq

/-- Modelled from the spec: `Create(declaredSize, metadata)` of the
`limitedstore` decorator (spec §4.3): compute
`remaining = ceiling - usedBytes`; if `declaredSize > remaining`, fail
with `QuotaExceeded` and change nothing; otherwise delegate to the inner
store and increment `usedBytes` by `declaredSize`.  The result pairs the
error (if any) with the state after the call. -/
def lsCreate (s : LimitedStore) (declaredSize : Int) :
    Option QuotaError × LimitedStore :=
  let remaining := s.ceiling - s.usedBytes
  if remaining < declaredSize then (some QuotaError.quotaExceeded, s)
  else (none,
    { s with
        inner := s.inner ++ [declaredSize]
        usedBytes := s.usedBytes + declaredSize })

/-- Concrete store record: identifier `id1`, filename metadata `b.txt`. -/
def exInfo1 : FileInfo :=
  { ID := strBytes "id1", Size := 1, Offset := 1
    MetaData := [(filenameKey, strBytes "b.txt")] }

/-- Concrete store record: identifier `id2`, filename metadata `a.txt`. -/
def exInfo2 : FileInfo :=
  { ID := strBytes "id2", Size := 1, Offset := 1
    MetaData := [(filenameKey, strBytes "a.txt")] }

/-- Concrete store record: identifier `id3`, filename metadata `c.txt`. -/
def exInfo3 : FileInfo :=
  { ID := strBytes "id3", Size := 1, Offset := 1
    MetaData := [(filenameKey, strBytes "c.txt")] }

/-- A concrete `GetInfo` oracle holding the three records above. -/
def exampleGetInfo : Bytes → Option FileInfo := fun id =>
  if id = strBytes "id1" then some exInfo1
  else if id = strBytes "id2" then some exInfo2
  else if id = strBytes "id3" then some exInfo3
  else none

/-! ## Order lemmas for the byte-wise comparison -/

/-- Agreement of `bytesLt` with the lexicographic order on byte lists. -/
theorem bytesLt_lex : ∀ {a b : Bytes}, bytesLt a b = true ↔ List.Lex (· < ·) a b
  | [], [] => by
    simp only [bytesLt]
    exact iff_of_false (by simp) (List.Lex.not_nil_right _ _)
  | [], _ :: _ => by
    simp only [bytesLt]
    exact iff_of_true trivial List.Lex.nil
  | _ :: _, [] => by
    simp only [bytesLt]
    exact iff_of_false (by simp) (List.Lex.not_nil_right _ _)
  | x :: xs, y :: ys => by
    simp only [bytesLt]
    by_cases hxy : x < y
    · rw [if_pos hxy]
      exact iff_of_true rfl (List.Lex.rel hxy)
    · by_cases hyx : y < x
      · rw [if_neg hxy, if_pos hyx]
        refine iff_of_false (by simp) ?_
        intro hlex
        cases hlex with
        | cons h => exact absurd hyx (lt_irrefl _)
        | rel h => exact hxy h
      · have hxyeq : x = y := by omega
        subst hxyeq
        rw [if_neg hxy, if_neg hyx, bytesLt_lex, List.Lex.cons_iff]

/-- Asymmetry of the byte-wise comparison. -/
theorem bytesLt_asymm {a b : Bytes} (h : bytesLt a b = true) :
    bytesLt b a = false := by
  cases h2 : bytesLt b a with
  | false => rfl
  | true => exact absurd (bytesLt_lex.mp h2) (asymm (bytesLt_lex.mp h))

/-- Two byte lists neither of which precedes the other are equal. -/
theorem bytesLt_connex {a b : Bytes} (h1 : bytesLt a b = false)
    (h2 : bytesLt b a = false) : a = b := by
  have htri := (List.Lex.isTrichotomous (α := Nat) (· < ·)).trichotomous
  rcases htri a b with h | h | h
  · rw [bytesLt_lex.mpr h] at h1
    cases h1
  · exact h
  · rw [bytesLt_lex.mpr h] at h2
    cases h2

/-- Transitivity of the byte-wise comparison. -/
theorem bytesLt_trans {a b c : Bytes} (h1 : bytesLt a b = true)
    (h2 : bytesLt b c = true) : bytesLt a c = true :=
  bytesLt_lex.mpr (IsTrans.trans _ _ _ (bytesLt_lex.mp h1) (bytesLt_lex.mp h2))

instance : IsTotal FileInfo infoLeP := by
  constructor
  intro a b
  unfold infoLeP infoLe
  cases h : bytesLt (fnameOf b) (fnameOf a) with
  | false => exact Or.inl (by simp [h])
  | true => exact Or.inr (by simp [bytesLt_asymm h])

instance : IsTrans FileInfo infoLeP := by
  constructor
  intro a b c h1 h2
  unfold infoLeP infoLe at h1 h2 ⊢
  rw [Bool.not_eq_true'] at h1 h2 ⊢
  cases hca : bytesLt (fnameOf c) (fnameOf a) with
  | false => rfl
  | true =>
    exfalso
    cases hbc : bytesLt (fnameOf b) (fnameOf c) with
    | true =>
      have hba := bytesLt_trans hbc hca
      rw [h1] at hba
      cases hba
    | false =>
      have heq : fnameOf b = fnameOf c := bytesLt_connex hbc h2
      rw [← heq, h1] at hca
      cases hca

/-! ## Claims -/

/-- C5: the quota-enforcing decorator is installed if and only if the
configured store-size ceiling is strictly positive (server.go:81); a zero
or negative ceiling leaves the decorator uninstalled. -/
theorem c5_quota_decorator_iff_positive_ceiling :
    ∀ storeSize maxSize : Int,
      (setupStore storeSize maxSize).quotaInstalled = true ↔ 0 < storeSize := by
  intro s m
  unfold setupStore
  by_cases h : 0 < s
  · rw [if_pos h]
    simp [h]
  · rw [if_neg h]
    simp [h]

/-- C10: whenever a positive store-size ceiling is configured, the
effective `MaxSize` handed to `tusd.NewHandler` never exceeds the
ceiling, and a configured max-size of zero or greater than the
ceiling is replaced by the ceiling (server.go:86-88, 113). -/
theorem c10_maxsize_clamped_to_ceiling :
    ∀ storeSize maxSize : Int, 0 < storeSize →
      (setupStore storeSize maxSize).maxSize ≤ storeSize ∧
        ((maxSize = 0 ∨ storeSize < maxSize) →
          (setupStore storeSize maxSize).maxSize = storeSize) := by
  intro s m hs
  unfold setupStore
  rw [if_pos hs]
  by_cases h : s < m ∨ m = 0
  · rw [if_pos h]
    exact ⟨le_refl s, fun _ => rfl⟩
  · rw [if_neg h]
    refine ⟨?_, ?_⟩
    · show m ≤ s
      omega
    · intro hc
      rcases hc with hc | hc
      · exact ((h (Or.inr hc)).elim)
      · exact ((h (Or.inl hc)).elim)

/-- Witness for C10 at ceiling 10 and configured max-size 0. -/
theorem c10_maxsize_clamped_to_ceiling_witness :
    (0 : Int) < 10 ∧
      (setupStore 10 0).maxSize ≤ 10 ∧ (setupStore 10 0).maxSize = 10 :=
  ⟨by decide,
    (c10_maxsize_clamped_to_ceiling 10 0 (by decide)).1,
    (c10_maxsize_clamped_to_ceiling 10 0 (by decide)).2 (Or.inl rfl)⟩

/-- C9: when the configured upload base path is the root path `/`, the
guard at server.go:127 suppresses the listing handler: only the upload
handler is mounted. -/
theorem c9_root_base_path_suppresses_listing :
    mountedHandlers (strBytes "/") = [(strBytes "/", HandlerKind.upload)] ∧
      (mountedHandlers (strBytes "/")).map Prod.snd = [HandlerKind.upload] := by
  constructor
  · rfl
  · rfl

/-- C6: each unrecoverable startup error — directory creation, protocol
handler creation, listing-template parse (when the listing handler is
mounted), or listener bind — makes `Server()` terminate via
`stderr.Fatalf` with a logged message, and the serving state is never
reached. -/
theorem c6_startup_errors_terminate :
    ∀ (uploadEndpoint : Bytes) (mkdirOk handlerOk templateOk listenOk : Bool),
      (mkdirOk = false ∨ handlerOk = false ∨
          (¬ listingEndpoint = uploadEndpoint ∧ templateOk = false) ∨
          listenOk = false) →
      (∃ msg, serverStartup uploadEndpoint mkdirOk handlerOk templateOk listenOk
          = StartupResult.fatal msg) ∧
        ¬ serverStartup uploadEndpoint mkdirOk handlerOk templateOk listenOk
            = StartupResult.serving := by
  intro ue m h t l hfail
  unfold serverStartup
  split_ifs with h1 h2 h3 h4
  · exact ⟨⟨_, rfl⟩, by simp⟩
  · exact ⟨⟨_, rfl⟩, by simp⟩
  · exact ⟨⟨_, rfl⟩, by simp⟩
  · exact ⟨⟨_, rfl⟩, by simp⟩
  · exfalso
    rcases hfail with hm | hh | htp | hl
    · exact h1 hm
    · exact h2 hh
    · exact h3 htp
    · exact h4 hl

/-- Witness for C6: a directory-creation failure at the default base
path. -/
theorem c6_startup_errors_terminate_witness :
    ((false : Bool) = false ∨ (true : Bool) = false ∨
        (¬ listingEndpoint = strBytes "/files/" ∧ (true : Bool) = false) ∨
        (true : Bool) = false) ∧
      ((∃ msg, serverStartup (strBytes "/files/") false true true true
          = StartupResult.fatal msg) ∧
        ¬ serverStartup (strBytes "/files/") false true true true
            = StartupResult.serving) :=
  ⟨Or.inl rfl,
    c6_startup_errors_terminate (strBytes "/files/") false true true true (Or.inl rfl)⟩

/-- C1: with a positive ceiling, `Create` fails with `QuotaExceeded`
exactly when the declared size exceeds `ceiling - usedBytes`; on failure
the state is unchanged, and on success `usedBytes` grows by the declared
size while the upload is delegated to the inner store. -/
theorem c1_create_quota_exceeded_iff :
    ∀ (s : LimitedStore) (declaredSize : Int), 0 < s.ceiling →
      ((lsCreate s declaredSize).1 = some QuotaError.quotaExceeded ↔
          s.ceiling - s.usedBytes < declaredSize) ∧
        ((lsCreate s declaredSize).1 = some QuotaError.quotaExceeded →
          (lsCreate s declaredSize).2 = s) ∧
        ((lsCreate s declaredSize).1 = none →
          (lsCreate s declaredSize).2.usedBytes = s.usedBytes + declaredSize ∧
            (lsCreate s declaredSize).2.inner = s.inner ++ [declaredSize] ∧
            (lsCreate s declaredSize).2.ceiling = s.ceiling) := by
  intro s d hpos
  by_cases hc : s.ceiling - s.usedBytes < d
  · simp [lsCreate, hc]
  · simp [lsCreate, hc]

/-- Witness for C1: ceiling 1000, 0 bytes used, declared size 700. -/
theorem c1_create_quota_exceeded_iff_witness :
    0 < (LimitedStore.mk 1000 0 []).ceiling ∧
      (((lsCreate (LimitedStore.mk 1000 0 []) 700).1
            = some QuotaError.quotaExceeded ↔
          (LimitedStore.mk 1000 0 []).ceiling
              - (LimitedStore.mk 1000 0 []).usedBytes < 700) ∧
        ((lsCreate (LimitedStore.mk 1000 0 []) 700).1
            = some QuotaError.quotaExceeded →
          (lsCreate (LimitedStore.mk 1000 0 []) 700).2
            = LimitedStore.mk 1000 0 []) ∧
        ((lsCreate (LimitedStore.mk 1000 0 []) 700).1 = none →
          (lsCreate (LimitedStore.mk 1000 0 []) 700).2.usedBytes
              = (LimitedStore.mk 1000 0 []).usedBytes + 700 ∧
            (lsCreate (LimitedStore.mk 1000 0 []) 700).2.inner
                = (LimitedStore.mk 1000 0 []).inner ++ [700] ∧
            (lsCreate (LimitedStore.mk 1000 0 []) 700).2.ceiling
                = (LimitedStore.mk 1000 0 []).ceiling)) :=
  ⟨by decide, c1_create_quota_exceeded_iff (LimitedStore.mk 1000 0 []) 700 (by decide)⟩

/-- C2: the listing sorts the collected records ascending by the
`filename` metadata value under the byte-wise order (server.go:217-219):
the output is a permutation of the collected records that is pairwise
non-descending, and on a store holding filenames `b.txt`, `a.txt`,
`c.txt` the rendered page lists `a.txt`, `b.txt`, `c.txt`. -/
theorem c2_listing_sorted_by_filename :
    (∀ infos : List FileInfo,
        (sortInfos infos).Perm infos ∧
          List.Pairwise infoLeP (sortInfos infos)) ∧
      homepageResponse true
          [strBytes "id1.info", strBytes "id2.info", strBytes "id3.info"]
          exampleGetInfo
        = ListingOutcome.page
            [{ href := urlStem ++ strBytes "id2", text := strBytes "a.txt" },
              { href := urlStem ++ strBytes "id1", text := strBytes "b.txt" },
              { href := urlStem ++ strBytes "id3", text := strBytes "c.txt" }] := by
  constructor
  · intro infos
    exact ⟨List.perm_insertionSort infoLeP infos,
      List.sorted_insertionSort infoLeP infos⟩
  · decide

/-- C4 (failing input): a directory entry shorter than the sidecar suffix
does not match the naming convention, yet instead of being ignored it
makes the handler panic: the debug print at server.go:203 evaluates
`filename[lenOfID:]` with a negative index before the guard at
server.go:206. -/
theorem c4_short_entry_crashes :
    ¬ sidecarMatches (strBytes "a") = true ∧
      homepageResponse true [strBytes "a"] (fun _ => none)
        = ListingOutcome.crash := by
  decide

/-- C3 (counterexample): `x.info` matches the sidecar convention and its
`GetInfo` fails, yet with a 2-byte foreign entry scanned first the
request dies in a panic (server.go:203), not in the HTTP 500 the claim
requires. -/
theorem c3_counterexample_crash_not_500 :
    sidecarMatches (strBytes "x.info") = true ∧
      (fun _ => (none : Option FileInfo)) (stemOf (strBytes "x.info")) = none ∧
      strBytes "x.info" ∈ [strBytes "ab", strBytes "x.info"] ∧
      homepageResponse true [strBytes "ab", strBytes "x.info"] (fun _ => none)
        = ListingOutcome.crash ∧
      ¬ homepageResponse true [strBytes "ab", strBytes "x.info"] (fun _ => none)
          = ListingOutcome.httpError 500 := by
  decide

/-- If some entry matches the sidecar convention but fails to resolve,
and no entry is short enough to trigger the panic of server.go:203, the
collection loop aborts with the `GetInfo` failure. -/
theorem collectInfos_fail_of_unresolved (getInfo : Bytes → Option FileInfo) :
    ∀ entries : List Bytes,
      (∀ e ∈ entries, 5 ≤ e.length) →
      (∃ e ∈ entries, sidecarMatches e = true ∧ getInfo (stemOf e) = none) →
      collectInfos getInfo entries = CollectResult.fail := by
  intro entries
  induction entries with
  | nil =>
    intro _ hex
    rcases hex with ⟨e, he, _⟩
    cases he
  | cons name rest ih =>
    intro hlen hex
    have hn5 : ¬ name.length < 5 := by
      have := hlen name (List.mem_cons_self _ _)
      omega
    have hrestlen : ∀ e ∈ rest, 5 ≤ e.length :=
      fun e he => hlen e (List.mem_cons_of_mem _ he)
    simp only [collectInfos]
    rw [if_neg hn5]
    by_cases hm : sidecarMatches name = true
    · rw [if_pos hm]
      cases hgi : getInfo (stemOf name) with
      | none => rfl
      | some info =>
        have hrest : ∃ e ∈ rest, sidecarMatches e = true ∧
            getInfo (stemOf e) = none := by
          rcases hex with ⟨e, he, hme, hne⟩
          rcases List.mem_cons.mp he with rfl | he2
          · rw [hgi] at hne
            cases hne
          · exact ⟨e, he2, hme, hne⟩
        rw [ih hrestlen hrest]
    · rw [if_neg hm]
      refine ih hrestlen ?_
      rcases hex with ⟨e, he, hme, hne⟩
      rcases List.mem_cons.mp he with rfl | he2
      · exact absurd hme hm
      · exact ⟨e, he2, hme, hne⟩

/-- C3 (amended): provided every scanned entry name is at least as long
as the sidecar suffix (so the debug print at server.go:203 cannot
panic), any single record that fails to resolve through `GetInfo` makes
the whole listing request fail with HTTP 500 (server.go:207-210): no
partial page is rendered and no record is silently omitted. -/
theorem c3_unresolved_record_aborts_listing :
    ∀ (entries : List Bytes) (getInfo : Bytes → Option FileInfo),
      (∀ e ∈ entries, 5 ≤ e.length) →
      (∃ e ∈ entries, sidecarMatches e = true ∧ getInfo (stemOf e) = none) →
      homepageResponse true entries getInfo = ListingOutcome.httpError 500 := by
  intro entries getInfo hlen hex
  unfold homepageResponse
  rw [collectInfos_fail_of_unresolved getInfo entries hlen hex]
  rfl

/-- Witness for C3 (amended): one well-formed sidecar entry whose record
cannot be resolved. -/
theorem c3_unresolved_record_aborts_listing_witness :
    (∀ e ∈ [strBytes "x.info"], 5 ≤ e.length) ∧
      (∃ e ∈ [strBytes "x.info"], sidecarMatches e = true ∧
        (fun _ => (none : Option FileInfo)) (stemOf e) = none) ∧
      homepageResponse true [strBytes "x.info"] (fun _ => none)
        = ListingOutcome.httpError 500 :=
  ⟨by decide, by decide,
    c3_unresolved_record_aborts_listing [strBytes "x.info"] (fun _ => none)
      (by decide) (by decide)⟩

/-- C8: the listing endpoint is the root path `/` (server.go:67), and
whenever the collection loop succeeds, the rendered page holds, for every
resolved record, a link whose href is the URL stem of the template at
server.go:181 followed by the record's identifier and whose visible text
is the record's `filename` metadata value. -/
theorem c8_listing_links :
    listingEndpoint = strBytes "/" ∧
      ∀ (entries : List Bytes) (getInfo : Bytes → Option FileInfo)
          (infos : List FileInfo),
        collectInfos getInfo entries = CollectResult.ok infos →
          homepageResponse true entries getInfo
              = ListingOutcome.page (renderLinks (sortInfos infos)) ∧
            ∀ info ∈ infos,
              Link.mk (urlStem ++ info.ID) (fnameOf info)
                ∈ renderLinks (sortInfos infos) := by
  refine ⟨rfl, ?_⟩
  intro entries getInfo infos hok
  constructor
  · unfold homepageResponse
    rw [hok]
    rfl
  · intro info hmem
    have hmem2 : info ∈ sortInfos infos :=
      ((List.perm_insertionSort infoLeP infos).mem_iff).mpr hmem
    exact List.mem_map_of_mem _ hmem2

/-- Witness for C8: a one-record store. -/
theorem c8_listing_links_witness :
    collectInfos exampleGetInfo [strBytes "id1.info"]
        = CollectResult.ok [exInfo1] ∧
      homepageResponse true [strBytes "id1.info"] exampleGetInfo
          = ListingOutcome.page (renderLinks (sortInfos [exInfo1])) ∧
      Link.mk (urlStem ++ exInfo1.ID) (fnameOf exInfo1)
        ∈ renderLinks (sortInfos [exInfo1]) :=
  ⟨by decide,
    (c8_listing_links.2 [strBytes "id1.info"] exampleGetInfo [exInfo1]
        (by decide)).1,
    (c8_listing_links.2 [strBytes "id1.info"] exampleGetInfo [exInfo1]
        (by decide)).2 exInfo1 (by decide)⟩

end TuscS5
